import Mathlib

/-!
Verification development for the safari-planner backend.

We shallowly embed the Python sources (`process_itinerary.py`,
`update_status.py`, `check_status.py`, `request_verification.py`,
`search_requests.py`) into Lean:

* JSON-like values (`JVal`) model Python dicts/lists produced by
  `json.loads`; numbers are modelled as rationals.
* DynamoDB items are association lists of attribute name/value pairs;
  a table is an association list keyed by the partition-key value.
  `update_item` follows DynamoDB semantics: a `SET` update edits the
  existing item, or creates a fresh item (key attribute plus the SET
  attributes) when the key is not present (upsert).
* Python string scanning (`str.find`, `str.rfind`, slicing, `strip`)
  is modelled on `List Char` with Python's negative-index rules.
* `json.loads` is modelled by a strict fuel-based recursive-descent
  parser (`jsonParse`); it rejects trailing non-whitespace like the
  Python function.  (Leading-zero rejection of the Python parser is
  not modelled; no result below depends on it.)
-/

set_option autoImplicit false

/-- JSON-like values: the shapes `json.loads` can produce. -/
inductive JVal where
  | null
  | bool (b : Bool)
  | num (q : ℚ)
  | str (s : String)
  | arr (xs : List JVal)
  | obj (kvs : List (String × JVal))

/-- A DynamoDB item: attribute name ↦ attribute value. -/
abbrev Item := List (String × JVal)

/-- A DynamoDB table: partition-key value ↦ item. -/
abbrev Table := List (String × Item)

/-- First binding of attribute `k` in an item (Python `dict` lookup). -/
def getAttr : Item → String → Option JVal
  | [], _ => none
  | (k', v) :: rest, k => if k' = k then some v else getAttr rest k

/-- Python `d[k] = v`: replace in place if present, else append
(dict insertion order). -/
def setAttr : Item → String → JVal → Item
  | [], k, v => [(k, v)]
  | (k', v') :: rest, k, v =>
    if k' = k then (k, v) :: rest else (k', v') :: setAttr rest k v

/-- Apply a list of `SET name = value` clauses left to right. -/
def setAttrs (it : Item) (sets : List (String × JVal)) : Item :=
  sets.foldl (fun acc kv => setAttr acc kv.1 kv.2) it

/-- `table.get_item(Key={...})`: the stored item for a key, if any. -/
def lookupRec : Table → String → Option Item
  | [], _ => none
  | (i, it) :: rest, id0 => if i = id0 then some it else lookupRec rest id0

/-- `table.update_item` with a pure `SET` expression and no condition
expression: edit the stored item, or create a new item (partition-key
attribute plus the SET attributes) if the key does not exist. -/
def updateItemTbl : Table → String → String → List (String × JVal) → Table
  | [], keyAttr, id0, sets => [(id0, setAttrs [(keyAttr, JVal.str id0)] sets)]
  | (i, it) :: rest, keyAttr, id0, sets =>
    if i = id0 then (i, setAttrs it sets) :: rest
    else (i, it) :: updateItemTbl rest keyAttr id0 sets

/-- `table.put_item`: replace the whole item stored at the key. -/
def putItemTbl : Table → String → Item → Table
  | [], id0, it => [(id0, it)]
  | (i, it') :: rest, id0, it =>
    if i = id0 then (i, it) :: rest else (i, it') :: putItemTbl rest id0 it

/-- Attribute `k` of the record stored under `rid`, if both exist. -/
def attrOf (tbl : Table) (rid k : String) : Option JVal :=
  (lookupRec tbl rid).bind (fun it => getAttr it k)

/-- Python truthiness of an optional value (`if x:` where `x` may be
`None`, a dict, a list, a string, a number or a bool). -/
def jTruthy : Option JVal → Bool
  | none => false
  | some JVal.null => false
  | some (JVal.bool b) => b
  | some (JVal.num q) => decide (q ≠ 0)
  | some (JVal.str s) => decide (s ≠ "")
  | some (JVal.arr xs) => !xs.isEmpty
  | some (JVal.obj kvs) => !kvs.isEmpty

@[simp] theorem getAttr_setAttr (it : Item) (k k' : String) (v : JVal) :
    getAttr (setAttr it k v) k' = if k' = k then some v else getAttr it k' := by
  induction it with
  | nil =>
    rcases eq_or_ne k' k with h | h
    · subst h; simp [setAttr, getAttr]
    · simp [setAttr, getAttr, h, h.symm]
  | cons p rest ih =>
    obtain ⟨k0, v0⟩ := p
    rcases eq_or_ne k0 k with h0 | h0
    · subst h0
      rcases eq_or_ne k' k0 with h1 | h1
      · subst h1; simp [setAttr, getAttr]
      · simp [setAttr, getAttr, h1, h1.symm]
    · rcases eq_or_ne k0 k' with h1 | h1
      · subst h1
        simp [setAttr, getAttr, h0]
      · simp [setAttr, getAttr, h0, h1, ih]

theorem getAttr_setAttrs (it : Item) (sets : List (String × JVal)) (k : String)
    (h : ∀ p ∈ sets, p.1 ≠ k) : getAttr (setAttrs it sets) k = getAttr it k := by
  induction sets generalizing it with
  | nil => rfl
  | cons p rest ih =>
    have hp : p.1 ≠ k := h p (by simp)
    have hrest : ∀ q ∈ rest, q.1 ≠ k := fun q hq => h q (List.mem_cons_of_mem _ hq)
    show getAttr (setAttrs (setAttr it p.1 p.2) rest) k = getAttr it k
    rw [ih _ hrest, getAttr_setAttr, if_neg hp.symm]

theorem lookupRec_updateItemTbl_self (tbl : Table) (keyAttr rid : String)
    (sets : List (String × JVal)) :
    lookupRec (updateItemTbl tbl keyAttr rid sets) rid =
      some (setAttrs ((lookupRec tbl rid).getD [(keyAttr, JVal.str rid)]) sets) := by
  induction tbl with
  | nil => simp [updateItemTbl, lookupRec]
  | cons p rest ih =>
    obtain ⟨i, it⟩ := p
    by_cases h : i = rid
    · simp [updateItemTbl, lookupRec, h]
    · simp [updateItemTbl, lookupRec, h, ih]

theorem lookupRec_putItemTbl_self (tbl : Table) (rid : String) (it : Item) :
    lookupRec (putItemTbl tbl rid it) rid = some it := by
  induction tbl with
  | nil => simp [putItemTbl, lookupRec]
  | cons p rest ih =>
    obtain ⟨i, it'⟩ := p
    by_cases h : i = rid
    · simp [putItemTbl, lookupRec, h]
    · simp [putItemTbl, lookupRec, h, ih]

/-! ## Python string primitives, on `List Char` -/

/-- The backtick character (obtained from a string literal). -/
def btick : Char := "`".data.headD ' '

/-- The opening-brace character. -/
def lbrace : Char := "\x7b".data.headD ' '

/-- The closing-brace character. -/
def rbrace : Char := "\x7d".data.headD ' '

/-- The `"```json"` fence marker searched for by the extractor. -/
def fenceJson : List Char := "```json".data

/-- The closing `"```"` fence marker. -/
def fenceTicks : List Char := "```".data

/-- Python `s.find(pat)`: index of the leftmost occurrence
(`none` for Python's `-1`). -/
def findSub : List Char → List Char → Option Nat
  | [], pat => if pat.isEmpty then some 0 else none
  | c :: rest, pat =>
    if pat.isPrefixOf (c :: rest) then some 0 else (findSub rest pat).map (· + 1)

/-- Python `s.find(pat, i)`: leftmost occurrence at index ≥ `i`. -/
def findFrom (s pat : List Char) (i : Nat) : Option Nat :=
  (findSub (s.drop i) pat).map (· + i)

/-- Python `s.rfind(c)` for a single character: rightmost occurrence. -/
def rfindChar (s : List Char) (c : Char) : Option Nat :=
  (findSub s.reverse [c]).map (fun i => s.length - 1 - i)

/-- Python slice `s[a:b]` (step 1) with negative-index normalisation. -/
def pySlice (s : List Char) (a b : Int) : List Char :=
  let n : Int := s.length
  let norm : Int → Nat := fun i => if i < 0 then (n + i).toNat else min i.toNat s.length
  ((s.drop (norm a)).take (norm b - norm a))

/-- Python whitespace (the characters removed by `str.strip()`). -/
def pyWs (c : Char) : Bool :=
  (c = ' ') || (c = '\t') || (c = '\n') || (c = '\r') ||
    (c = Char.ofNat 11) || (c = Char.ofNat 12)

/-- Python `s.strip()`. -/
def pyStrip (s : List Char) : List Char :=
  ((s.dropWhile pyWs).reverse.dropWhile pyWs).reverse

/-- Python `s.upper()` (ASCII; statuses in this code base are ASCII). -/
def pyUpper (s : String) : String := String.mk (s.data.map Char.toUpper)

/-!
## The JSON extractor of `generate_itinerary`

`process_itinerary.py`, lines 192-202: prefer the content between a
"```json" marker and the following "```" marker; otherwise take the
span from the first opening brace to the last closing brace.  Both
`find` calls return `-1` when the needle is absent, and the resulting
slice is stripped.
-/
def extractJson (t : List Char) : List Char :=
  match findSub t fenceJson with
  | some i =>
    let jsonEnd : Int :=
      match findFrom t fenceTicks (i + 7) with
      | some j => (j : Int)
      | none => -1
    pyStrip (pySlice t ((i : Int) + 7) jsonEnd)
  | none =>
    let jsonStart : Int :=
      match findSub t [lbrace] with
      | some i => (i : Int)
      | none => -1
    let jsonEnd : Int :=
      (match rfindChar t rbrace with
       | some j => (j : Int)
       | none => -1) + 1
    pyStrip (pySlice t jsonStart jsonEnd)

/-!
## A model of `json.loads`

Strict recursive-descent JSON parser with a fuel bound.  Objects keep
the first position but the last value for duplicate keys, as Python
dicts do.
-/

/-- JSON whitespace accepted between tokens. -/
def jsonWs (c : Char) : Bool := (c = ' ') || (c = '\t') || (c = '\n') || (c = '\r')

/-- Skip JSON whitespace. -/
def skipWs (s : List Char) : List Char := s.dropWhile jsonWs

/-- Value of a hex digit, if the character is one. -/
def hexVal (c : Char) : Option Nat :=
  if 48 ≤ c.toNat ∧ c.toNat ≤ 57 then some (c.toNat - 48)
  else if 97 ≤ c.toNat ∧ c.toNat ≤ 102 then some (c.toNat - 87)
  else if 65 ≤ c.toNat ∧ c.toNat ≤ 70 then some (c.toNat - 55)
  else none

/-- Body of a JSON string after the opening quote, with escapes. -/
def parseStrAux : List Char → List Char → Option (String × List Char)
  | [], _ => none
  | c :: rest, acc =>
    if c = '"' then some (String.mk acc.reverse, rest)
    else if c = '\\' then
      match rest with
      | [] => none
      | e :: rest2 =>
        if e = '"' then parseStrAux rest2 ('"' :: acc)
        else if e = '\\' then parseStrAux rest2 ('\\' :: acc)
        else if e = '/' then parseStrAux rest2 ('/' :: acc)
        else if e = 'b' then parseStrAux rest2 (Char.ofNat 8 :: acc)
        else if e = 'f' then parseStrAux rest2 (Char.ofNat 12 :: acc)
        else if e = 'n' then parseStrAux rest2 ('\n' :: acc)
        else if e = 'r' then parseStrAux rest2 ('\r' :: acc)
        else if e = 't' then parseStrAux rest2 ('\t' :: acc)
        else if e = 'u' then
          match rest2 with
          | h1 :: h2 :: h3 :: h4 :: rest3 =>
            match hexVal h1, hexVal h2, hexVal h3, hexVal h4 with
            | some a, some b, some c3, some d =>
              parseStrAux rest3 (Char.ofNat (((a * 16 + b) * 16 + c3) * 16 + d) :: acc)
            | _, _, _, _ => none
          | _ => none
        else none
    else parseStrAux rest (c :: acc)

/-- Decimal value of a digit string. -/
def digitsToNat (ds : List Char) : Nat :=
  ds.foldl (fun n c => n * 10 + (c.toNat - 48)) 0

/-- `10 ^ n` as a rational, by structural recursion. -/
def pow10 : Nat → ℚ
  | 0 => 1
  | n + 1 => 10 * pow10 n

/-- A JSON number: sign, integer part, optional fraction and exponent. -/
def parseNum (s : List Char) : Option (ℚ × List Char) :=
  let signSplit : Bool × List Char :=
    match s with
    | c :: rest => if c = '-' then (true, rest) else (false, c :: rest)
    | [] => (false, [])
  let neg := signSplit.1
  let s1 := signSplit.2
  let ids := s1.takeWhile Char.isDigit
  let s2 := s1.dropWhile Char.isDigit
  if ids.isEmpty then none
  else
    let base : ℚ := (digitsToNat ids : ℚ)
    let fracStep : Option (ℚ × List Char) :=
      match s2 with
      | c :: rest =>
        if c = '.' then
          let fds := rest.takeWhile Char.isDigit
          let rest2 := rest.dropWhile Char.isDigit
          if fds.isEmpty then none
          else some (base + (digitsToNat fds : ℚ) / pow10 fds.length, rest2)
        else some (base, c :: rest)
      | [] => some (base, [])
    match fracStep with
    | none => none
    | some (v1, s3) =>
      let expStep : Option (ℚ × List Char) :=
        match s3 with
        | c :: rest =>
          if c = 'e' ∨ c = 'E' then
            let esplit : Bool × List Char :=
              match rest with
              | d :: r =>
                if d = '-' then (true, r)
                else if d = '+' then (false, r) else (false, d :: r)
              | [] => (false, [])
            let eds := esplit.2.takeWhile Char.isDigit
            let r2 := esplit.2.dropWhile Char.isDigit
            if eds.isEmpty then none
            else
              let m := pow10 (digitsToNat eds)
              some (if esplit.1 then v1 / m else v1 * m, r2)
          else some (v1, c :: rest)
        | [] => some (v1, [])
      match expStep with
      | none => none
      | some (v2, s4) => some ((if neg then -v2 else v2), s4)

/-- Array elements after the opening bracket (first element pending). -/
def parseItemsAux (pv : List Char → Option (JVal × List Char)) :
    Nat → List Char → List JVal → Option (JVal × List Char)
  | 0, _, _ => none
  | fuel + 1, s, acc =>
    match pv s with
    | none => none
    | some (v, rest) =>
      match skipWs rest with
      | c :: rest2 =>
        if c = ',' then parseItemsAux pv fuel rest2 (v :: acc)
        else if c = ']' then some (JVal.arr (v :: acc).reverse, rest2)
        else none
      | [] => none

/-- Object members after the opening brace (first key pending). -/
def parseMembersAux (pv : List Char → Option (JVal × List Char)) :
    Nat → List Char → List (String × JVal) → Option (JVal × List Char)
  | 0, _, _ => none
  | fuel + 1, s, acc =>
    match skipWs s with
    | c :: rest =>
      if c = '"' then
        match parseStrAux rest [] with
        | none => none
        | some (key, rest2) =>
          match skipWs rest2 with
          | c2 :: rest3 =>
            if c2 = ':' then
              match pv rest3 with
              | none => none
              | some (v, rest4) =>
                match skipWs rest4 with
                | c3 :: rest5 =>
                  if c3 = ',' then parseMembersAux pv fuel rest5 (setAttr acc key v)
                  else if c3 = rbrace then some (JVal.obj (setAttr acc key v), rest5)
                  else none
                | [] => none
            else none
          | [] => none
      else none
    | [] => none

/-- One JSON value; consumes leading whitespace, returns the rest. -/
def parseVal : Nat → List Char → Option (JVal × List Char)
  | 0, _ => none
  | fuel + 1, s =>
    match skipWs s with
    | [] => none
    | c :: rest =>
      if c = '"' then
        match parseStrAux rest [] with
        | none => none
        | some (str0, r) => some (JVal.str str0, r)
      else if c = lbrace then
        match skipWs rest with
        | c2 :: rest2 =>
          if c2 = rbrace then some (JVal.obj [], rest2)
          else parseMembersAux (parseVal fuel) fuel rest []
        | [] => none
      else if c = '[' then
        match skipWs rest with
        | c2 :: rest2 =>
          if c2 = ']' then some (JVal.arr [], rest2)
          else parseItemsAux (parseVal fuel) fuel rest []
        | [] => none
      else if c = 't' then
        if ['r', 'u', 'e'].isPrefixOf rest then some (JVal.bool true, rest.drop 3)
        else none
      else if c = 'f' then
        if ['a', 'l', 's', 'e'].isPrefixOf rest then some (JVal.bool false, rest.drop 4)
        else none
      else if c = 'n' then
        if ['u', 'l', 'l'].isPrefixOf rest then some (JVal.null, rest.drop 3)
        else none
      else
        (parseNum (c :: rest)).map (fun p => (JVal.num p.1, p.2))

/-- `json.loads` on a character list: one value, then only whitespace. -/
def jsonParseL (s : List Char) : Option JVal :=
  match parseVal (s.length + 1) s with
  | none => none
  | some (v, rest) => if (skipWs rest).isEmpty then some v else none

/-- `json.loads` on a string. -/
def jsonParse (s : String) : Option JVal := jsonParseL s.data

/-!
## `process_itinerary.generate_itinerary`, post-completion stages

Python exceptions raised between receiving the completion text and
returning the itinerary dict, one constructor per raise site:

* `invalidJSON` — `json.loads` failed on the extracted span and the
  `json.JSONDecodeError` handler re-raised
  `ValueError("Failed to parse JSON from model response: ...")`
  (lines 225-227);
* `notDict` — `ValueError("Generated itinerary is not a valid JSON
  object")` (line 209);
* `missingItin` — `ValueError("Generated itinerary missing 'itinerary'
  array")` (line 212);
* `attrErr` — `AttributeError` from `day.get` when a "day" is not a
  dict (line 216);
* `typeErr` — `TypeError` from `sum` over a non-numeric per-day cost
  or from iterating a non-iterable (line 216);
* `nameErr` — `NameError: name 'total_travelers' is not defined`:
  `total_travelers` is a local of `generate_prompt`, not in scope in
  `generate_itinerary` (line 221).
-/
inductive PErr where
  | invalidJSON
  | notDict
  | missingItin
  | attrErr
  | typeErr
  | nameErr

/-- `day.get('totalCost', 0)` as a summand (line 216): `0` when the
key is absent; Python bools count as ints; other non-numeric values
make `sum` raise `TypeError`; a non-dict day makes `.get` raise
`AttributeError`. -/
def dayCost (d : JVal) : Except PErr ℚ :=
  match d with
  | JVal.obj kvs =>
    match getAttr kvs "totalCost" with
    | none => Except.ok 0
    | some (JVal.num q) => Except.ok q
    | some (JVal.bool b) => Except.ok (if b then 1 else 0)
    | some _ => Except.error PErr.typeErr
  | _ => Except.error PErr.attrErr

/-- `sum(day.get('totalCost', 0) for day in days)`, left to right. -/
def sumDayCosts : List JVal → Except PErr ℚ
  | [] => Except.ok 0
  | d :: rest =>
    match dayCost d with
    | Except.error e => Except.error e
    | Except.ok q =>
      match sumDayCosts rest with
      | Except.error e => Except.error e
      | Except.ok r => Except.ok (q + r)

/-- Iterating `itinerary['itinerary']`: a list yields its entries; a
non-empty string or dict yields characters/keys whose `.get` raises
`AttributeError` (an empty one sums to 0); other values are not
iterable (`TypeError`). -/
def iterDays : JVal → Except PErr (List JVal)
  | JVal.arr xs => Except.ok xs
  | JVal.str s => if s = "" then Except.ok [] else Except.error PErr.attrErr
  | JVal.obj kvs => if kvs.isEmpty then Except.ok [] else Except.error PErr.attrErr
  | _ => Except.error PErr.typeErr

/-!
Validation and cost back-fill of `generate_itinerary`
(`process_itinerary.py`, lines 205-223), applied to the parsed value:

* reject non-dicts, then dicts without an `'itinerary'` key;
* if `'totalCost'` is absent, set it to the sum of the per-day
  `totalCost` fields;
* if `'costPerPerson'` is absent, the assignment on line 221 evaluates
  `total_travelers`, a name that is not defined in this function, so a
  `NameError` is raised (the already-performed `totalCost` mutation is
  discarded because the exception propagates to the caller).
-/
def processParsed (v : JVal) : Except PErr JVal :=
  match v with
  | JVal.obj kvs =>
    if (getAttr kvs "itinerary").isNone then Except.error PErr.missingItin
    else if (getAttr kvs "totalCost").isSome then
      if (getAttr kvs "costPerPerson").isSome then Except.ok (JVal.obj kvs)
      else Except.error PErr.nameErr
    else
      match iterDays ((getAttr kvs "itinerary").getD JVal.null) with
      | Except.error e => Except.error e
      | Except.ok days =>
        match sumDayCosts days with
        | Except.error e => Except.error e
        | Except.ok q =>
          let kvs1 := setAttr kvs "totalCost" (JVal.num q)
          if (getAttr kvs1 "costPerPerson").isSome then Except.ok (JVal.obj kvs1)
          else Except.error PErr.nameErr
  | _ => Except.error PErr.notDict

/-- Extraction plus parsing plus validation/back-fill: everything
`generate_itinerary` does to the raw completion text
(`process_itinerary.py`, lines 192-227). -/
def processRawL (t : List Char) : Except PErr JVal :=
  match jsonParseL (extractJson t) with
  | none => Except.error PErr.invalidJSON
  | some v => processParsed v

/-- `processRawL` on a string. -/
def processRaw (t : String) : Except PErr JVal := processRawL t.data

/-!
## `process_itinerary.update_request_status` (lines 233-284)

Builds `SET #status = :status`, appends the output/cost clauses when
`itinerary_data` is truthy, appends the error clause when `error` is a
non-empty string.  Note the attribute written by the error clause is
named `'error'` (`expression_names['#error_message'] = 'error'`), not
`'errorMessage'`.  `Decimal(str(...))` on the numeric cost fields is
value-preserving and modelled as the identity on numbers (the
`.get(..., 0)` default applies when the key is absent; non-numeric
cost values are outside the modelled scope).
-/
def getNumD (v : Option JVal) (d : ℚ) : ℚ :=
  match v with
  | some (JVal.num q) => q
  | _ => d

/-- `.get` on the serialized itinerary payload (a dict in every call
that reaches this code). -/
def jGet (v : JVal) (k : String) : Option JVal :=
  match v with
  | JVal.obj kvs => getAttr kvs k
  | _ => none

def updateRequestStatusPipeline (tbl : Table) (rid status : String)
    (itin : Option JVal) (err : Option String) : Table :=
  let sets : List (String × JVal) := [("status", JVal.str status)]
  let sets :=
    if jTruthy itin then
      match itin with
      | some it =>
        sets ++ [("output", it),
          ("totalCost", JVal.num (getNumD (jGet it "totalCost") 0)),
          ("costPerPerson", JVal.num (getNumD (jGet it "costPerPerson") 0))]
      | none => sets
    else sets
  let sets :=
    match err with
    | some e => if e ≠ "" then sets ++ [("error", JVal.str e)] else sets
    | none => sets
  updateItemTbl tbl "requestId" rid sets

/-!
## `process_itinerary.lambda_handler`, the pipeline run (lines 315-370)

After the `processing` transition the handler runs prompt generation
and `generate_itinerary`; we take the outcome of that inner block as a
parameter (`Except String JVal`: an exception's `str(e)` or the
itinerary).  On success it stores the itinerary under status
`PENDING_ACCEPTANCE` (HTTP 200); on any exception it stores status
`failed` with `error=str(e)` (HTTP 500).
-/
def processLambdaRun (tbl : Table) (rid : String) (gen : Except String JVal) :
    Table × Nat :=
  let t1 := updateRequestStatusPipeline tbl rid "processing" none none
  match gen with
  | Except.ok itin => (updateRequestStatusPipeline t1 rid "PENDING_ACCEPTANCE" (some itin) none, 200)
  | Except.error e => (updateRequestStatusPipeline t1 rid "failed" none (some e), 500)

/-!
## `update_status.py`

`VALID_STATUSES` (lines 18-25) — the misspelling `ITENERARY` is in the
source.
-/
def validStatuses : List String :=
  ["PENDING_ITENERARY_CREATION", "PENDING_ITENERARY_ACCEPTANCE",
   "PENDING_BOOKING", "BOOKING_IN_PROGRESS", "PENDING_PAYMENT", "COMPLETE"]

/-- `update_status.verify_code` (lines 27-50): the verification record
is looked up by email; the check is `item.get('code') == code and
item.get('expiresAt', 0) > now`.  A non-numeric `expiresAt` raises
`TypeError`, which the surrounding `except` turns into `False`. -/
def verifyCode (vtbl : Table) (email code : String) (now : ℚ) : Bool :=
  match lookupRec vtbl email with
  | none => false
  | some it =>
    let codeOk :=
      match getAttr it "code" with
      | some (JVal.str s) => decide (s = code)
      | _ => false
    let expOk :=
      match getAttr it "expiresAt" with
      | some (JVal.num q) => decide (q > now)
      | none => decide ((0 : ℚ) > now)
      | some _ => false
    codeOk && expOk

/-- `update_status.update_request_status` (lines 52-86): reject a
status outside `VALID_STATUSES` with `ValueError`; otherwise
`update_item` (upsert — there is no condition expression) with
`SET #status, updatedAt` and, when a truthy new email is given,
`email`; returns the `ALL_NEW` attributes. -/
def updateRequestStatusAdvance (tbl : Table) (rid newStatus : String)
    (newEmail : Option String) (now : String) : Except Unit (Table × Item) :=
  if newStatus ∉ validStatuses then Except.error ()
  else
    let sets : List (String × JVal) :=
      [("status", JVal.str newStatus), ("updatedAt", JVal.str now)]
    let sets :=
      match newEmail with
      | some e => if e ≠ "" then sets ++ [("email", JVal.str e)] else sets
      | none => sets
    let tbl1 := updateItemTbl tbl "requestId" rid sets
    Except.ok (tbl1, (lookupRec tbl1 rid).getD [])

/-- Responses of `update_status.lambda_handler`.  `invalidStatus` is
the 400 from the `ValueError` branch (lines 182-189); the
`'Item not found'` 404 branch (lines 190-198) is unreachable because
`update_item` upserts instead of raising. -/
inductive UpdResp where
  | missingId
  | missingStatus
  | needCode
  | badCode
  | invalidStatus
  | success (body : Item)

/-- `update_status.lambda_handler` (lines 88-209) on an
already-parsed request (query string and JSON body fields given as
options; `now` is `datetime.utcnow().isoformat()`, `nowT` the same
instant as a timestamp for the verification check). -/
def updateStatusHandler (tbl vtbl : Table) (rid status email vcode : Option String)
    (now : String) (nowT : ℚ) : Table × UpdResp :=
  match rid with
  | none => (tbl, UpdResp.missingId)
  | some r =>
    if r = "" then (tbl, UpdResp.missingId)
    else
      match status with
      | none => (tbl, UpdResp.missingStatus)
      | some st =>
        if st = "" then (tbl, UpdResp.missingStatus)
        else
          let emailTruthy : Bool :=
            match email with
            | some e => decide (e ≠ "")
            | none => false
          let codeGiven : Bool :=
            match vcode with
            | some c => decide (c ≠ "")
            | none => false
          if emailTruthy then
            if codeGiven then
              if verifyCode vtbl (email.getD "") (vcode.getD "") nowT then
                match updateRequestStatusAdvance tbl r st email now with
                | Except.error _ => (tbl, UpdResp.invalidStatus)
                | Except.ok (tbl1, body) => (tbl1, UpdResp.success body)
              else (tbl, UpdResp.badCode)
            else (tbl, UpdResp.needCode)
          else
            match updateRequestStatusAdvance tbl r st email now with
            | Except.error _ => (tbl, UpdResp.invalidStatus)
            | Except.ok (tbl1, body) => (tbl1, UpdResp.success body)

/-!
## `check_status.py`
-/

/-- `str(item.get('status', ''))` (line 87).  Absent status gives
`''`; the statuses written by this code base are strings (non-string
status values are outside the modelled scope). -/
def statusStr (it : Item) : String :=
  match getAttr it "status" with
  | some (JVal.str s) => s
  | _ => ""

/-- The response projection built by `check_status.lambda_handler`
(lines 72-99): the fixed ten fields, then `itinerary` when the
upper-cased status is `COMPLETE` or `PENDING_BOOKING` AND the record
has an `itinerary` attribute, then `errorMessage` when the upper-cased
status is `ERROR`. -/
def checkStatusProj (it : Item) : Item :=
  [("requestId", (getAttr it "requestId").getD JVal.null),
   ("status", (getAttr it "status").getD JVal.null),
   ("createdAt", (getAttr it "createdAt").getD JVal.null),
   ("startDate", (getAttr it "startDate").getD JVal.null),
   ("endDate", (getAttr it "endDate").getD JVal.null),
   ("email", (getAttr it "email").getD JVal.null),
   ("totalCost", (getAttr it "totalCost").getD (JVal.num 0)),
   ("costPerPerson", (getAttr it "costPerPerson").getD (JVal.num 0)),
   ("currency", (getAttr it "currency").getD (JVal.str "USD")),
   ("paymentStatus", (getAttr it "paymentStatus").getD (JVal.str "unpaid"))]

/-- The projection after the conditional `itinerary` append
(lines 86-95). -/
def checkStatusBodyPre (it : Item) : Item :=
  if (pyUpper (statusStr it) = "COMPLETE" ∨ pyUpper (statusStr it) = "PENDING_BOOKING") ∧
      (getAttr it "itinerary").isSome then
    checkStatusProj it ++ [("itinerary", (getAttr it "itinerary").getD JVal.null)]
  else checkStatusProj it

def checkStatusBody (it : Item) : Item :=
  if pyUpper (statusStr it) = "ERROR" then
    checkStatusBodyPre it ++ [("errorMessage", (getAttr it "errorMessage").getD JVal.null)]
  else checkStatusBodyPre it

/-- `check_status.lambda_handler` (lines 46-105) after CORS/OPTIONS
handling: 400 without a request id, 404 when the record is absent,
otherwise 200 with the projection body. -/
def checkStatusHandler (tbl : Table) (rid : Option String) : Nat × Option Item :=
  match rid with
  | none => (400, none)
  | some r =>
    if r = "" then (400, none)
    else
      match lookupRec tbl r with
      | none => (404, none)
      | some it => (200, some (checkStatusBody it))

/-!
## `request_verification.py` and `search_requests.py`
-/

/-- The item written by
`request_verification.store_verification_code` (lines 24-42): exactly
the attributes `email`, `code` and `expiresAt`. -/
def verificationItem (email code : String) (expiresAt : ℚ) : Item :=
  [("email", JVal.str email), ("code", JVal.str code), ("expiresAt", JVal.num expiresAt)]

/-- `store_verification_code`: `put_item` of the record keyed by
email. -/
def storeVerificationCode (vtbl : Table) (email code : String) (expiresAt : ℚ) : Table :=
  putItemTbl vtbl email (verificationItem email code expiresAt)

/-- `datetime.fromisoformat(x)` as used on
`verification_item.get('expirationTime')` (`search_requests.py`,
line 109): a string parses (ISO strings are kept as strings and
compared lexicographically, which agrees with chronological order for
the equal-format timestamps this code writes); `None` or any
non-string raises `TypeError`. -/
def fromIso (v : Option JVal) : Except Unit String :=
  match v with
  | some (JVal.str s) => Except.ok s
  | _ => Except.error ()

/-- `query(IndexName='EmailIndex', ...)`: all records whose `email`
attribute equals the given string. -/
def queryByEmail (rtbl : Table) (email : String) : List Item :=
  (rtbl.map (fun p => p.2)).filter
    (fun it =>
      match getAttr it "email" with
      | some (JVal.str s) => decide (s = email)
      | _ => false)

/-- The per-record projection of `search_requests.lambda_handler`
(lines 132-146): fixed fields, plus `itinerary` taken from the
`output` attribute when the (raw) status is `COMPLETE`,
`PENDING_BOOKING` or `PENDING_ACCEPTANCE`. -/
def formatSearchItem (it : Item) : Item :=
  let base : Item :=
    [("requestId", (getAttr it "requestId").getD JVal.null),
     ("status", (getAttr it "status").getD JVal.null),
     ("createdAt", (getAttr it "createdAt").getD JVal.null),
     ("email", (getAttr it "email").getD JVal.null),
     ("paymentStatus", (getAttr it "paymentStatus").getD (JVal.str "PENDING"))]
  let statusIn : Bool :=
    match getAttr it "status" with
    | some (JVal.str s) =>
      decide (s = "COMPLETE") || decide (s = "PENDING_BOOKING") ||
        decide (s = "PENDING_ACCEPTANCE")
    | _ => false
  if statusIn then base ++ [("itinerary", (getAttr it "output").getD JVal.null)]
  else base

/-- Responses of `search_requests.lambda_handler`. -/
inductive SearchResp where
  | badRequest
  | codeNotFound
  | unauthorized
  | success (reqs : List Item)
  | internalErr

/-- `search_requests.lambda_handler` (lines 73-175) after
CORS/OPTIONS handling.  Note the verification check reads the
attributes `verificationCode` and `expirationTime`;
`datetime.fromisoformat` is evaluated on line 109 before the
code-mismatch test, and a `TypeError` there propagates to the outer
`except Exception`, which answers 500 (`internalErr`). -/
def searchHandler (rtbl vtbl : Table) (email code : Option String) (now : String) :
    SearchResp :=
  let emailT : Bool :=
    match email with
    | some e => decide (e ≠ "")
    | none => false
  let codeT : Bool :=
    match code with
    | some c => decide (c ≠ "")
    | none => false
  if !(emailT && codeT) then SearchResp.badRequest
  else
    match lookupRec vtbl (email.getD "") with
    | none => SearchResp.codeNotFound
    | some item =>
      match fromIso (getAttr item "expirationTime") with
      | Except.error _ => SearchResp.internalErr
      | Except.ok expIso =>
        let mismatch : Bool :=
          match getAttr item "verificationCode" with
          | some (JVal.str s) => decide (s ≠ code.getD "")
          | _ => true
        if mismatch || decide (expIso < now) then SearchResp.unauthorized
        else SearchResp.success ((queryByEmail rtbl (email.getD "")).map formatSearchItem)

/-! ## Shared store lemmas -/

theorem setAttrs_one (it : Item) (k : String) (v : JVal) :
    setAttrs it [(k, v)] = setAttr it k v := rfl

theorem setAttrs_two (it : Item) (k1 k2 : String) (v1 v2 : JVal) :
    setAttrs it [(k1, v1), (k2, v2)] = setAttr (setAttr it k1 v1) k2 v2 := rfl

theorem getAttr_append (xs ys : Item) (k : String) :
    getAttr (xs ++ ys) k =
      (match getAttr xs k with
       | some v => some v
       | none => getAttr ys k) := by
  induction xs with
  | nil => simp [getAttr]
  | cons p rest ih =>
    obtain ⟨k0, v0⟩ := p
    by_cases h : k0 = k
    · simp [getAttr, h]
    · simp [getAttr, h, ih]

/-! ## Claim theorems -/

/-- **C2** (code bug).  The `costPerPerson` back-fill of
`generate_itinerary` (line 221) divides by `total_travelers`, a name
defined only in `generate_prompt`: whenever the parsed model output
lacks `costPerPerson`, the step raises
`NameError: name 'total_travelers' is not defined` instead of
computing `totalCost / totalTravelers` (rounded, with a zero-divisor
guard) as the claim states — shown both with and without a
model-provided `totalCost`. -/
theorem C2_costPerPerson_backfill_raises_NameError :
    processParsed (JVal.obj [("itinerary", JVal.arr [])]) = Except.error PErr.nameErr ∧
    processParsed (JVal.obj [("itinerary", JVal.arr []), ("totalCost", JVal.num 100)])
      = Except.error PErr.nameErr := ⟨rfl, rfl⟩

/-- **C10** (confirmed).  A pipeline `update_request_status` call with
a status only (no itinerary data, no error) issues
`SET #status = :status` and nothing else: the stored record's `status`
attribute becomes the new status and every other attribute is
unchanged. -/
theorem C10_status_only_update_is_frame (tbl : Table) (rid status : String) (item : Item)
    (h : lookupRec tbl rid = some item) :
    attrOf (updateRequestStatusPipeline tbl rid status none none) rid "status"
        = some (JVal.str status) ∧
    ∀ k : String, k ≠ "status" →
      attrOf (updateRequestStatusPipeline tbl rid status none none) rid k
        = attrOf tbl rid k := by
  have he : updateRequestStatusPipeline tbl rid status none none
      = updateItemTbl tbl "requestId" rid [("status", JVal.str status)] := rfl
  have hl := lookupRec_updateItemTbl_self tbl "requestId" rid [("status", JVal.str status)]
  rw [he]
  unfold attrOf
  rw [hl, h]
  constructor
  · simp [setAttrs_one]
  · intro k hk
    simp [setAttrs_one, hk]

/-- The record used to witness C10. -/
def itemC10 : Item :=
  [("requestId", JVal.str "r1"), ("email", JVal.str "user@example.com"),
   ("status", JVal.str "pending"), ("totalCost", JVal.num 0)]

/-- Witness for C10 at a concrete record. -/
theorem C10_status_only_update_is_frame_witness :
    attrOf (updateRequestStatusPipeline [("r1", itemC10)] "r1" "PENDING_ACCEPTANCE" none none)
        "r1" "email" = some (JVal.str "user@example.com") ∧
    attrOf (updateRequestStatusPipeline [("r1", itemC10)] "r1" "PENDING_ACCEPTANCE" none none)
        "r1" "status" = some (JVal.str "PENDING_ACCEPTANCE") := by
  have h := C10_status_only_update_is_frame [("r1", itemC10)] "r1" "PENDING_ACCEPTANCE" itemC10 rfl
  refine ⟨(h.2 "email" (by decide)).trans ?_, h.1⟩
  rfl

/-- **C8** (confirmed).  A status-advance call whose `newStatus` is
outside `VALID_STATUSES` hits the `ValueError` branch of
`update_request_status` before any store access: the handler answers
with the invalid-status 400 and the table is completely unchanged. -/
theorem C8_invalid_status_leaves_store_unchanged (tbl vtbl : Table) (rid st now : String)
    (nowT : ℚ) (hr : rid ≠ "") (hs : st ≠ "") (hv : st ∉ validStatuses) :
    updateStatusHandler tbl vtbl (some rid) (some st) none none now nowT
      = (tbl, UpdResp.invalidStatus) := by
  simp [updateStatusHandler, hr, hs, updateRequestStatusAdvance, hv]

/-- Witness for C8: `newStatus = "BOGUS"`. -/
theorem C8_invalid_status_leaves_store_unchanged_witness :
    updateStatusHandler [("r1", [("requestId", JVal.str "r1"), ("status", JVal.str "PENDING_BOOKING")])]
        [] (some "r1") (some "BOGUS") none none "2025-04-01T00:00:00" 0
      = ([("r1", [("requestId", JVal.str "r1"), ("status", JVal.str "PENDING_BOOKING")])],
         UpdResp.invalidStatus) :=
  C8_invalid_status_leaves_store_unchanged _ _ _ _ _ _ (by decide) (by decide) (by decide)

/-- **C4** (code bug).  A status-advance for an identifier that is not
in the store does not answer `NotFound`: `update_item` has no
condition expression, so DynamoDB upserts — a fresh record containing
only `requestId`, `status` and `updatedAt` is created and the handler
answers success.  (The handler's `'Item not found'` 404 branch is
unreachable.) -/
theorem C4_unknown_id_is_upserted_not_rejected :
    updateStatusHandler [] [] (some "missing-id") (some "COMPLETE") none none
        "2025-04-01T00:00:00" 0
      = ([("missing-id",
           [("requestId", JVal.str "missing-id"), ("status", JVal.str "COMPLETE"),
            ("updatedAt", JVal.str "2025-04-01T00:00:00")])],
         UpdResp.success
           [("requestId", JVal.str "missing-id"), ("status", JVal.str "COMPLETE"),
            ("updatedAt", JVal.str "2025-04-01T00:00:00")]) := rfl

/-- **C9** (confirmed).  `request_verification.store_verification_code`
writes the attributes `email`, `code`, `expiresAt`, while the
verification check of `search_requests.lambda_handler` reads
`verificationCode` and `expirationTime`.  On any record written by the
former, `item.get('expirationTime')` is `None`, so
`datetime.fromisoformat(None)` raises `TypeError` and the handler
answers 500 — for every submitted code, the request list is never
returned. -/
theorem C9_search_verification_never_succeeds (rtbl vtbl : Table)
    (email vcode scode now : String) (exp : ℚ) (he : email ≠ "") (hc : scode ≠ "") :
    searchHandler rtbl (storeVerificationCode vtbl email vcode exp) (some email)
        (some scode) now = SearchResp.internalErr := by
  have hl : lookupRec (storeVerificationCode vtbl email vcode exp) email
      = some (verificationItem email vcode exp) :=
    lookupRec_putItemTbl_self vtbl email (verificationItem email vcode exp)
  have hg : getAttr (verificationItem email vcode exp) "expirationTime" = none := rfl
  simp [searchHandler, he, hc, hl, hg, fromIso]

/-- Witness for C9 at a concrete verification record and code. -/
theorem C9_search_verification_never_succeeds_witness :
    searchHandler [] (storeVerificationCode [] "user@example.com" "123456" 100)
        (some "user@example.com") (some "123456") "2025-04-01T00:00:00"
      = SearchResp.internalErr :=
  C9_search_verification_never_succeeds [] [] "user@example.com" "123456" "123456"
    "2025-04-01T00:00:00" 100 (by decide) (by decide)

/-- `attrOf` after an upsert, in terms of the SET clauses. -/
theorem attrOf_updateItemTbl (tbl : Table) (a rid : String)
    (sets : List (String × JVal)) (k : String) :
    attrOf (updateItemTbl tbl a rid sets) rid k =
      getAttr (setAttrs ((lookupRec tbl rid).getD [(a, JVal.str rid)]) sets) k := by
  unfold attrOf
  rw [lookupRec_updateItemTbl_self]
  rfl

/-- **C1** (corrected).  A pipeline run whose inner block raises with
message `m` after the `processing` transition always ends with
`status = 'failed'` (never `processing`) and HTTP 500; but the error
text is stored under the attribute `error` (the
`ExpressionAttributeNames` of `update_request_status` map
`#error_message` to `'error'`), only when `m` is non-empty, and the
record's `errorMessage` attribute is left exactly as it was. -/
theorem C1_failed_run_final_state (tbl : Table) (rid m : String) :
    attrOf (processLambdaRun tbl rid (Except.error m)).1 rid "status"
        = some (JVal.str "failed") ∧
    attrOf (processLambdaRun tbl rid (Except.error m)).1 rid "errorMessage"
        = attrOf tbl rid "errorMessage" ∧
    (m ≠ "" → attrOf (processLambdaRun tbl rid (Except.error m)).1 rid "error"
        = some (JVal.str m)) ∧
    (processLambdaRun tbl rid (Except.error m)).2 = 500 := by
  have hbase : ∀ k : String, k ≠ "status" →
      getAttr (setAttrs ((lookupRec tbl rid).getD [("requestId", JVal.str rid)])
        [("status", JVal.str "processing")]) k
      = getAttr ((lookupRec tbl rid).getD [("requestId", JVal.str rid)]) k := by
    intro k hk
    rw [setAttrs_one, getAttr_setAttr, if_neg hk]
  have hem : getAttr ((lookupRec tbl rid).getD [("requestId", JVal.str rid)]) "errorMessage"
      = attrOf tbl rid "errorMessage" := by
    unfold attrOf
    cases hlk : lookupRec tbl rid with
    | none => rfl
    | some item => rfl
  by_cases hm : m = ""
  · subst hm
    have hrun : (processLambdaRun tbl rid (Except.error "")).1 =
        updateItemTbl (updateRequestStatusPipeline tbl rid "processing" none none)
          "requestId" rid [("status", JVal.str "failed")] := rfl
    refine ⟨?_, ?_, fun hne => absurd rfl hne, rfl⟩
    · rw [hrun, attrOf_updateItemTbl, setAttrs_one, getAttr_setAttr]
      simp
    · rw [hrun, attrOf_updateItemTbl, setAttrs_one, getAttr_setAttr, if_neg (by decide)]
      have h1 : updateRequestStatusPipeline tbl rid "processing" none none
          = updateItemTbl tbl "requestId" rid [("status", JVal.str "processing")] := rfl
      rw [h1, lookupRec_updateItemTbl_self]
      simp only [Option.getD_some]
      rw [hbase "errorMessage" (by decide), hem]
  · have hrun : (processLambdaRun tbl rid (Except.error m)).1 =
        updateItemTbl (updateRequestStatusPipeline tbl rid "processing" none none)
          "requestId" rid [("status", JVal.str "failed"), ("error", JVal.str m)] := by
      show (updateRequestStatusPipeline _ rid "failed" none (some m), (500 : Nat)).1 = _
      simp [updateRequestStatusPipeline, jTruthy, hm]
    have h1 : updateRequestStatusPipeline tbl rid "processing" none none
        = updateItemTbl tbl "requestId" rid [("status", JVal.str "processing")] := rfl
    refine ⟨?_, ?_, fun _ => ?_, rfl⟩
    · rw [hrun, attrOf_updateItemTbl, setAttrs_two, getAttr_setAttr, if_neg (by decide),
        getAttr_setAttr]
      simp
    · rw [hrun, attrOf_updateItemTbl, setAttrs_two, getAttr_setAttr, if_neg (by decide),
        getAttr_setAttr, if_neg (by decide)]
      rw [h1, lookupRec_updateItemTbl_self]
      simp only [Option.getD_some]
      rw [hbase "errorMessage" (by decide), hem]
    · rw [hrun, attrOf_updateItemTbl, setAttrs_two, getAttr_setAttr]
      simp

/-- Witness for C1 at a concrete failing run. -/
theorem C1_failed_run_final_state_witness :
    attrOf (processLambdaRun [("r1", [("requestId", JVal.str "r1"),
        ("status", JVal.str "pending"), ("errorMessage", JVal.null)])] "r1"
        (Except.error "model timeout")).1 "r1" "status" = some (JVal.str "failed") ∧
    attrOf (processLambdaRun [("r1", [("requestId", JVal.str "r1"),
        ("status", JVal.str "pending"), ("errorMessage", JVal.null)])] "r1"
        (Except.error "model timeout")).1 "r1" "error" = some (JVal.str "model timeout") := by
  have h := C1_failed_run_final_state [("r1", [("requestId", JVal.str "r1"),
    ("status", JVal.str "pending"), ("errorMessage", JVal.null)])] "r1" "model timeout"
  exact ⟨h.1, h.2.2.1 (by decide)⟩

/-- The seeded record used for the C1 counterexample (shaped like the
item written by `store_request`). -/
def itemC1 : Item :=
  [("requestId", JVal.str "r1"), ("email", JVal.str "user@example.com"),
   ("createdAt", JVal.str "2025-04-01T10:00:00"), ("startDate", JVal.str "2025-04-10"),
   ("endDate", JVal.str "2025-04-17"), ("status", JVal.str "pending"),
   ("paymentStatus", JVal.str "unpaid"), ("totalCost", JVal.num 0),
   ("costPerPerson", JVal.num 0), ("currency", JVal.str "USD"),
   ("output", JVal.null), ("errorMessage", JVal.null)]

/-- Counterexample to C1 as stated: after a failing run the record's
`errorMessage` attribute is still `null` — the message went to the
`error` attribute — so "a non-empty errorMessage is stored" is false
(status does end at `failed`). -/
theorem C1_errorMessage_not_stored_on_failure :
    attrOf (processLambdaRun [("r1", itemC1)] "r1" (Except.error "Bedrock timeout")).1
        "r1" "status" = some (JVal.str "failed") ∧
    attrOf (processLambdaRun [("r1", itemC1)] "r1" (Except.error "Bedrock timeout")).1
        "r1" "errorMessage" = some JVal.null ∧
    attrOf (processLambdaRun [("r1", itemC1)] "r1" (Except.error "Bedrock timeout")).1
        "r1" "error" = some (JVal.str "Bedrock timeout") := ⟨rfl, rfl, rfl⟩

/-- **C6** (corrected, positive part).  The pipeline performs no
normalization at all: when the parsed output already has `itinerary`,
`totalCost` and `costPerPerson`, `generate_itinerary` returns it
completely unchanged — whatever extra keys it carries at any level. -/
theorem C6_no_key_filtering (kvs : List (String × JVal))
    (h1 : (getAttr kvs "itinerary").isSome) (h2 : (getAttr kvs "totalCost").isSome)
    (h3 : (getAttr kvs "costPerPerson").isSome) :
    processParsed (JVal.obj kvs) = Except.ok (JVal.obj kvs) := by
  obtain ⟨v1, hv1⟩ := Option.isSome_iff_exists.mp h1
  simp [processParsed, hv1, h2, h3]

/-- Witness for C6 on an input with an unknown key. -/
theorem C6_no_key_filtering_witness :
    processParsed (JVal.obj [("itinerary", JVal.arr []), ("totalCost", JVal.num 10),
        ("costPerPerson", JVal.num 5), ("foo", JVal.str "bar")])
      = Except.ok (JVal.obj [("itinerary", JVal.arr []), ("totalCost", JVal.num 10),
        ("costPerPerson", JVal.num 5), ("foo", JVal.str "bar")]) :=
  C6_no_key_filtering _ (by rfl) (by rfl) (by rfl)

/-- Counterexample to C6 as stated: a non-allow-listed key (`quux`)
survives processing, and a mapping-shaped input without `itinerary`
makes processing fail — so the output does not contain only
allow-listed keys and processing is not total on mappings. -/
theorem C6_extra_key_survives_and_mapping_can_fail :
    processParsed (JVal.obj [("itinerary", JVal.arr []), ("totalCost", JVal.num 10),
        ("costPerPerson", JVal.num 5), ("quux", JVal.str "extra")])
      = Except.ok (JVal.obj [("itinerary", JVal.arr []), ("totalCost", JVal.num 10),
        ("costPerPerson", JVal.num 5), ("quux", JVal.str "extra")]) ∧
    getAttr [("itinerary", JVal.arr []), ("totalCost", JVal.num 10),
        ("costPerPerson", JVal.num 5), ("quux", JVal.str "extra")] "quux"
      = some (JVal.str "extra") ∧
    processParsed (JVal.obj [("summary", JVal.str "s")]) = Except.error PErr.missingItin :=
  ⟨rfl, rfl, rfl⟩

/-- The summand contributed by one day of the itinerary when summing
per-day costs (`0` for a day without its own `totalCost`). -/
def dayCostPure (d : JVal) : ℚ :=
  match d with
  | JVal.obj dkvs => getNumD (getAttr dkvs "totalCost") 0
  | _ => 0

/-- Sum of the per-day `totalCost` fields. -/
def daysTotal : List JVal → ℚ
  | [] => 0
  | d :: rest => dayCostPure d + daysTotal rest

/-- A day entry is a dict whose `totalCost`, if present, is numeric. -/
def DayShaped (d : JVal) : Prop :=
  ∃ dkvs, d = JVal.obj dkvs ∧
    (getAttr dkvs "totalCost" = none ∨ ∃ q, getAttr dkvs "totalCost" = some (JVal.num q))

theorem sumDayCosts_eq_daysTotal (days : List JVal) (h : ∀ d ∈ days, DayShaped d) :
    sumDayCosts days = Except.ok (daysTotal days) := by
  induction days with
  | nil => rfl
  | cons d rest ih =>
    obtain ⟨dkvs, hd, hc⟩ := h d (by simp)
    have hrest := ih (fun x hx => h x (List.mem_cons_of_mem _ hx))
    subst hd
    rcases hc with hnone | ⟨q, hq⟩
    · simp [sumDayCosts, dayCost, hnone, hrest, daysTotal, dayCostPure, getNumD]
    · simp [sumDayCosts, dayCost, hq, hrest, daysTotal, dayCostPure, getNumD]

/-- **C7** (corrected).  On a parsed output whose `costPerPerson` is
present (so that the broken per-person back-fill is skipped) and whose
days are dicts with numeric-or-absent `totalCost`: an absent
`totalCost` is back-filled with the sum of the per-day `totalCost`
fields (0 for days lacking one, hence 0 when none are present), and a
model-provided `totalCost` is never overwritten.  When `costPerPerson`
is also absent, the run errors instead of accepting the output (see
the counterexample). -/
theorem C7_totalCost_backfill_sums_days (kvs : List (String × JVal)) (days : List JVal)
    (hit : getAttr kvs "itinerary" = some (JVal.arr days))
    (hcpp : (getAttr kvs "costPerPerson").isSome)
    (hds : ∀ d ∈ days, DayShaped d) :
    (getAttr kvs "totalCost" = none →
        processParsed (JVal.obj kvs)
          = Except.ok (JVal.obj (setAttr kvs "totalCost" (JVal.num (daysTotal days))))) ∧
    (∀ v0, getAttr kvs "totalCost" = some v0 →
        processParsed (JVal.obj kvs) = Except.ok (JVal.obj kvs)) := by
  constructor
  · intro htc
    have hsum := sumDayCosts_eq_daysTotal days hds
    have hcpp2 : (getAttr (setAttr kvs "totalCost" (JVal.num (daysTotal days)))
        "costPerPerson").isSome := by
      rw [getAttr_setAttr, if_neg (by decide)]
      exact hcpp
    simp [processParsed, hit, htc, iterDays, hsum, hcpp2]
    exact Option.isSome_iff_ne_none.mp hcpp
  · intro v0 htc
    simp [processParsed, hit, htc, hcpp]

/-- The parsed output used to witness C7. -/
def kvsC7 : List (String × JVal) :=
  [("summary", JVal.str "trip"),
   ("itinerary", JVal.arr [JVal.obj [("day", JVal.num 1), ("totalCost", JVal.num 200)],
      JVal.obj [("day", JVal.num 2)]]),
   ("costPerPerson", JVal.num 75)]

/-- Witness for C7: two days, one with a cost of 200, one without —
the back-filled `totalCost` is 200 and is appended to the dict. -/
theorem C7_totalCost_backfill_sums_days_witness :
    processParsed (JVal.obj kvsC7)
      = Except.ok (JVal.obj (kvsC7 ++ [("totalCost", JVal.num (200 + (0 + 0)))])) := by
  have h := C7_totalCost_backfill_sums_days kvsC7
    [JVal.obj [("day", JVal.num 1), ("totalCost", JVal.num 200)],
     JVal.obj [("day", JVal.num 2)]] rfl (by rfl)
    (by
      intro d hd
      simp only [List.mem_cons, List.not_mem_nil, or_false] at hd
      rcases hd with h | h
      · exact ⟨_, h, Or.inr ⟨200, rfl⟩⟩
      · exact ⟨_, h, Or.inl rfl⟩)
  exact (h.1 rfl).trans rfl

/-- Counterexample to C7 as stated: an itinerary lacking `totalCost`
(and, as is then typical, `costPerPerson`) is not "accepted output":
the run fails with the `NameError` of the per-person back-fill. -/
theorem C7_missing_totalCost_not_accepted :
    processParsed (JVal.obj [("itinerary", JVal.arr [JVal.obj [("day", JVal.num 1)]])])
      = Except.error PErr.nameErr := rfl

theorem getAttr_checkStatusProj_itinerary (it : Item) :
    getAttr (checkStatusProj it) "itinerary" = none := rfl

/-- **C5** (corrected).  The poll-status response carries an
`itinerary` field iff the record's upper-cased status is `COMPLETE` or
`PENDING_BOOKING` AND the record has an `itinerary` attribute.
`ready` is not an including status, and the pipeline stores the
generated itinerary under `output`, so pipeline-written records never
satisfy the second conjunct (see the counterexample). -/
theorem C5_poll_includes_itinerary_iff (tbl : Table) (rid : String) (it : Item)
    (hr : rid ≠ "") (h : lookupRec tbl rid = some it) :
    (checkStatusHandler tbl (some rid)).1 = 200 ∧
    (checkStatusHandler tbl (some rid)).2 = some (checkStatusBody it) ∧
    ((getAttr (checkStatusBody it) "itinerary").isSome ↔
      ((pyUpper (statusStr it) = "COMPLETE" ∨ pyUpper (statusStr it) = "PENDING_BOOKING") ∧
        (getAttr it "itinerary").isSome)) := by
  refine ⟨by simp [checkStatusHandler, hr, h], by simp [checkStatusHandler, hr, h], ?_⟩
  unfold checkStatusBody
  by_cases hcond : (pyUpper (statusStr it) = "COMPLETE" ∨
      pyUpper (statusStr it) = "PENDING_BOOKING") ∧ (getAttr it "itinerary").isSome
  · have hne : pyUpper (statusStr it) ≠ "ERROR" := by
      rcases hcond.1 with h1 | h1 <;> rw [h1] <;> decide
    rw [if_neg hne]
    unfold checkStatusBodyPre
    rw [if_pos hcond, getAttr_append, getAttr_checkStatusProj_itinerary]
    simp [getAttr, hcond]
  · have hbody : (getAttr (checkStatusBodyPre it) "itinerary").isSome = false := by
      unfold checkStatusBodyPre
      rw [if_neg hcond, getAttr_checkStatusProj_itinerary]
      rfl
    by_cases herr : pyUpper (statusStr it) = "ERROR"
    · rw [if_pos herr, getAttr_append]
      unfold checkStatusBodyPre
      rw [if_neg hcond, getAttr_checkStatusProj_itinerary]
      simp [getAttr, hcond]
    · rw [if_neg herr]
      simp [hbody, hcond]

/-- The record used to witness C5: an `itinerary` attribute is present
and the status is `PENDING_BOOKING`, so it is included. -/
def itemC5 : Item :=
  [("requestId", JVal.str "r9"), ("status", JVal.str "PENDING_BOOKING"),
   ("itinerary", JVal.obj [("summary", JVal.str "trip")])]

/-- Witness for C5 at a concrete record. -/
theorem C5_poll_includes_itinerary_iff_witness :
    (checkStatusHandler [("r9", itemC5)] (some "r9")).1 = 200 ∧
    (getAttr (checkStatusBody itemC5) "itinerary").isSome := by
  have h := C5_poll_includes_itinerary_iff [("r9", itemC5)] "r9" itemC5 (by decide) rfl
  exact ⟨h.1, h.2.2.mpr ⟨Or.inr rfl, rfl⟩⟩

/-- The record a completed pipeline run leaves behind, advanced to
`PENDING_BOOKING`: the generated itinerary lives under `output`. -/
def itemC5cx : Item :=
  [("requestId", JVal.str "r2"), ("status", JVal.str "PENDING_BOOKING"),
   ("output", JVal.obj [("summary", JVal.str "trip")]),
   ("totalCost", JVal.num 100), ("costPerPerson", JVal.num 50)]

/-- Counterexample to C5 as stated: a pipeline-completed record with a
stored itinerary (under `output`) and status `PENDING_BOOKING` gets a
200 poll response WITHOUT the itinerary; and a record with status
`ready` and even a literal `itinerary` attribute is not included
either. -/
theorem C5_pipeline_itinerary_absent_from_poll :
    (checkStatusHandler [("r2", itemC5cx)] (some "r2")).1 = 200 ∧
    getAttr ((checkStatusHandler [("r2", itemC5cx)] (some "r2")).2.getD []) "itinerary"
      = none ∧
    getAttr (checkStatusBody [("requestId", JVal.str "r3"), ("status", JVal.str "ready"),
        ("itinerary", JVal.obj [("summary", JVal.str "t")])]) "itinerary" = none :=
  ⟨rfl, rfl, rfl⟩


/-! ## Lemmas about the Python string primitives -/

theorem findSub_cons_pos (x : Char) (l pat : List Char)
    (h : pat.isPrefixOf (x :: l) = true) : findSub (x :: l) pat = some 0 := by
  simp only [findSub]
  rw [if_pos h]

theorem findSub_cons_neg (x : Char) (l pat : List Char)
    (h : ¬ pat.isPrefixOf (x :: l) = true) :
    findSub (x :: l) pat = (findSub l pat).map (· + 1) := by
  simp only [findSub]
  rw [if_neg h]

theorem not_isPrefixOf_cons_of_ne (x c : Char) (l pt : List Char)
    (hne : c ≠ x) : ¬ (c :: pt).isPrefixOf (x :: l) = true := by
  intro hpp
  simp only [List.isPrefixOf, Bool.and_eq_true, beq_iff_eq] at hpp
  exact hne hpp.1

theorem findSub_append_of_head_notMem (a rest pt : List Char) (c : Char)
    (hnot : c ∉ a) (hpre : (c :: pt).isPrefixOf rest = true) :
    findSub (a ++ rest) (c :: pt) = some a.length := by
  induction a with
  | nil =>
    cases rest with
    | nil => simp [List.isPrefixOf] at hpre
    | cons r rs =>
      simpa using findSub_cons_pos r rs (c :: pt) hpre
  | cons x xs ih =>
    have hne : c ≠ x := fun h => hnot (h ▸ List.mem_cons_self x xs)
    rw [List.cons_append,
      findSub_cons_neg x (xs ++ rest) (c :: pt) (not_isPrefixOf_cons_of_ne x c _ pt hne),
      ih (fun hmem => hnot (List.mem_cons_of_mem _ hmem))]
    rfl

theorem findSub_none_of_head_notMem (a pt : List Char) (c : Char) (hnot : c ∉ a) :
    findSub a (c :: pt) = none := by
  induction a with
  | nil => rfl
  | cons x xs ih =>
    have hne : c ≠ x := fun h => hnot (h ▸ List.mem_cons_self x xs)
    rw [findSub_cons_neg x xs (c :: pt) (not_isPrefixOf_cons_of_ne x c _ pt hne),
      ih (fun hmem => hnot (List.mem_cons_of_mem _ hmem))]
    rfl

theorem findSub_isPrefixOf_drop (s pt : List Char) (c : Char) (i : Nat)
    (h : findSub s (c :: pt) = some i) : (c :: pt).isPrefixOf (s.drop i) = true := by
  induction s generalizing i with
  | nil => simp [findSub] at h
  | cons x xs ih =>
    by_cases hp : (c :: pt).isPrefixOf (x :: xs) = true
    · rw [findSub_cons_pos x xs (c :: pt) hp] at h
      injection h with h1
      subst h1
      simpa using hp
    · rw [findSub_cons_neg x xs (c :: pt) hp] at h
      cases hj : findSub xs (c :: pt) with
      | none => rw [hj] at h; simp at h
      | some j =>
        rw [hj] at h
        simp only [Option.map_some'] at h
        injection h with h1
        subst h1
        simpa using ih j hj

theorem findSub_lt_length (s pt : List Char) (c : Char) (i : Nat)
    (h : findSub s (c :: pt) = some i) : i < s.length := by
  induction s generalizing i with
  | nil => simp [findSub] at h
  | cons x xs ih =>
    by_cases hp : (c :: pt).isPrefixOf (x :: xs) = true
    · rw [findSub_cons_pos x xs (c :: pt) hp] at h
      injection h with h1
      subst h1
      simp
    · rw [findSub_cons_neg x xs (c :: pt) hp] at h
      cases hj : findSub xs (c :: pt) with
      | none => rw [hj] at h; simp at h
      | some j =>
        rw [hj] at h
        simp only [Option.map_some'] at h
        injection h with h1
        subst h1
        have := ih j hj
        simp only [List.length_cons]
        omega

theorem pySlice_ofNat (s : List Char) (m k : Nat) :
    pySlice s (m : Int) (k : Int) = (s.drop m).take (k - m) := by
  unfold pySlice
  have hm : ¬ (m : Int) < 0 := by omega
  have hk : ¬ (k : Int) < 0 := by omega
  simp only [hm, hk, if_false, Int.toNat_ofNat]
  rcases le_or_lt m s.length with hmle | hmlt
  · rw [min_eq_left hmle]
    rcases le_or_lt k s.length with hkle | hkle
    · rw [min_eq_left hkle]
    · rw [min_eq_right (le_of_lt hkle)]
      have hlen : (s.drop m).length = s.length - m := List.length_drop m s
      rw [List.take_of_length_le (by omega), List.take_of_length_le (by omega)]
  · rw [min_eq_right (le_of_lt hmlt)]
    have h3 : s.drop m = [] := List.drop_eq_nil_of_le (le_of_lt hmlt)
    rw [List.drop_length, h3]
    simp

theorem isPrefixOf_append_self (l z : List Char) : l.isPrefixOf (l ++ z) = true :=
  List.isPrefixOf_iff_prefix.mpr (List.prefix_append l z)

/-- Fenced extraction: on text of the shape
`a ++ "```json" ++ b ++ "```" ++ c` where neither `a` nor `b` contains
a backtick, the extractor returns exactly the (stripped) fenced
content `b`. -/
theorem extractJson_fenced (a b c : List Char) (ha : btick ∉ a) (hb : btick ∉ b) :
    extractJson (a ++ (fenceJson ++ (b ++ (fenceTicks ++ c)))) = pyStrip b := by
  have hfj : fenceJson = btick :: "``json".data := by decide
  have hft : fenceTicks = btick :: "``".data := by decide
  have hlen7 : fenceJson.length = 7 := by decide
  set t := a ++ (fenceJson ++ (b ++ (fenceTicks ++ c))) with ht
  have h1 : findSub t fenceJson = some a.length := by
    rw [ht, hfj]
    exact findSub_append_of_head_notMem a _ _ btick ha
      (isPrefixOf_append_self _ _)
  have hdrop : t.drop (a.length + 7) = b ++ (fenceTicks ++ c) := by
    rw [ht, ← List.append_assoc]
    have hl : a.length + 7 = (a ++ fenceJson).length := by
      rw [List.length_append, hlen7]
    rw [hl, List.drop_left]
  have h2 : findFrom t fenceTicks (a.length + 7) = some (b.length + (a.length + 7)) := by
    unfold findFrom
    rw [hdrop, hft]
    rw [findSub_append_of_head_notMem b _ _ btick hb
      (isPrefixOf_append_self _ _)]
    rfl
  unfold extractJson
  simp only [h1, h2]
  have hcast : ((a.length : Int) + 7) = ((a.length + 7 : Nat) : Int) := by push_cast; ring
  rw [hcast, pySlice_ofNat, hdrop]
  have harith : b.length + (a.length + 7) - (a.length + 7) = b.length := by omega
  rw [harith, List.take_left]

/-- Fallback extraction: with no fence marker anywhere, on text of the
shape `p ++ "{" ++ m ++ "}" ++ s` where `p` has no earlier opening
brace and `s` no later closing brace, the extractor returns the
(stripped) span from the first `{` to the last `}`. -/
theorem extractJson_braces (p m s : List Char)
    (hfence : findSub (p ++ (lbrace :: (m ++ (rbrace :: s)))) fenceJson = none)
    (hp : lbrace ∉ p) (hs : rbrace ∉ s) :
    extractJson (p ++ (lbrace :: (m ++ (rbrace :: s))))
      = pyStrip (lbrace :: (m ++ [rbrace])) := by
  set t := p ++ (lbrace :: (m ++ (rbrace :: s))) with ht
  have h1 : findSub t [lbrace] = some p.length := by
    rw [ht]
    exact findSub_append_of_head_notMem p _ _ lbrace hp (by simp [List.isPrefixOf])
  have hrev : t.reverse = s.reverse ++ (rbrace :: (m.reverse ++ (lbrace :: p.reverse))) := by
    rw [ht]
    simp [List.reverse_append, List.reverse_cons, List.append_assoc]
  have hlent : t.length = p.length + m.length + s.length + 2 := by
    rw [ht]
    simp [List.length_append, List.length_cons]
    omega
  have h2 : rfindChar t rbrace = some (p.length + m.length + 1) := by
    unfold rfindChar
    rw [hrev, findSub_append_of_head_notMem s.reverse _ _ rbrace
      (fun hmem => hs (List.mem_reverse.mp hmem)) (by simp [List.isPrefixOf])]
    simp only [Option.map_some', List.length_reverse]
    rw [hlent]
    congr 1
    omega
  unfold extractJson
  simp only [hfence, h1, h2]
  have hcast : ((p.length + m.length + 1 : Nat) : Int) + 1
      = ((p.length + m.length + 2 : Nat) : Int) := by push_cast; ring
  rw [hcast, pySlice_ofNat]
  have hdrop : t.drop p.length = lbrace :: (m ++ (rbrace :: s)) := by
    rw [ht]
    exact List.drop_left p _
  rw [hdrop]
  have harith : p.length + m.length + 2 - p.length = m.length + 2 := by omega
  rw [harith]
  have hsplit : m.length + 2 = (m.length + 1) + 1 := rfl
  rw [hsplit, List.take_succ_cons]
  congr 1
  rw [List.take_append]
  rfl

theorem pySlice_neg_one (s : List Char) (b : Int) (hlen : 1 ≤ s.length) :
    pySlice s (-1) b = pySlice s ((s.length - 1 : Nat) : Int) b := by
  unfold pySlice
  have h1 : ((-1 : Int) < 0) := by omega
  have h2 : ¬ ((s.length - 1 : Nat) : Int) < 0 := by omega
  simp only [h1, if_true, h2, if_false, Int.toNat_ofNat]
  have h3 : ((s.length : Int) + -1).toNat = s.length - 1 := by omega
  have h4 : min (s.length - 1) s.length = s.length - 1 := by omega
  rw [h3, h4]

theorem pySlice_neg_one_zero (s : List Char) : pySlice s (-1) 0 = [] := by
  unfold pySlice
  simp

/-- No-brace fallback: with no fence marker and no opening brace at
all, the extracted span is `""` (or the single final `"}"`), neither
of which parses, so the whole completion-processing step fails with
the same JSON-parse `ValueError` as any unparsable span — not with a
distinct no-JSON-found failure. -/
theorem processRawL_no_brace (t : List Char)
    (hfence : findSub t fenceJson = none) (hb : lbrace ∉ t) :
    processRawL t = Except.error PErr.invalidJSON := by
  have h1 : findSub t [lbrace] = none := findSub_none_of_head_notMem t [] lbrace hb
  unfold processRawL extractJson
  simp only [hfence, h1]
  cases hr : rfindChar t rbrace with
  | none =>
    rw [show (-1 : Int) + 1 = 0 from rfl, pySlice_neg_one_zero]
    rfl
  | some r =>
    obtain ⟨i, hi, hir⟩ := Option.map_eq_some'.mp hr
    have hpre := findSub_isPrefixOf_drop t.reverse [] rbrace i hi
    have hilt : i < t.reverse.length := findSub_lt_length t.reverse [] rbrace i hi
    rw [List.length_reverse] at hilt
    have hlenpos : 1 ≤ t.length := by omega
    have hcast : (r : Int) + 1 = ((r + 1 : Nat) : Int) := by push_cast; ring
    rw [hcast, pySlice_neg_one t _ hlenpos, pySlice_ofNat]
    by_cases hi0 : i = 0
    · subst hi0
      obtain ⟨tl, htl⟩ : ∃ tl, t.reverse = rbrace :: tl := by
        cases htr : t.reverse with
        | nil =>
          have hz : t.length = 0 := by
            have h5 := congrArg List.length htr
            simpa using h5
          exact absurd hilt (by omega)
        | cons y ys =>
          rw [htr] at hpre
          simp only [List.drop_zero, List.isPrefixOf, Bool.and_eq_true, beq_iff_eq] at hpre
          exact ⟨ys, by rw [← hpre.1]⟩
      have htdecomp : t = tl.reverse ++ [rbrace] := by
        have h5 := congrArg List.reverse htl
        simpa using h5
      have hdrop : t.drop (t.length - 1) = [rbrace] := by
        rw [htdecomp]
        have h9 : (tl.reverse ++ [rbrace]).length - 1 = tl.reverse.length := by simp
        rw [h9]
        exact List.drop_left tl.reverse [rbrace]
      have hrv : r = t.length - 1 := by omega
      have harith : r + 1 - (t.length - 1) = 1 := by omega
      rw [harith, hdrop]
      rfl
    · have harith : r + 1 - (t.length - 1) = 0 := by omega
      rw [harith, List.take_zero]
      rfl

/-- **C3** (corrected).  The extractor of `generate_itinerary`:
(1) fenced input `a ++ "```json" ++ b ++ "```" ++ c` (no backtick in
`a` or `b`) yields exactly the stripped fenced content `b`;
(2) with no fence, input `p ++ "{" ++ m ++ "}" ++ s` (no `{` in `p`,
no `}` in `s`) yields the stripped first-`{`-to-last-`}` span;
(3) with no fence and no `{` at all, the extracted span is empty (or a
lone final `}`), and processing fails with the same JSON-parse
`ValueError` (`invalidJSON`) as any unparsable span — there is no
distinct `MalformedCompletion` failure mode. -/
theorem C3_extraction_cases :
    (∀ a b c : List Char, btick ∉ a → btick ∉ b →
        extractJson (a ++ (fenceJson ++ (b ++ (fenceTicks ++ c)))) = pyStrip b) ∧
    (∀ p m s : List Char,
        findSub (p ++ (lbrace :: (m ++ (rbrace :: s)))) fenceJson = none →
        lbrace ∉ p → rbrace ∉ s →
        extractJson (p ++ (lbrace :: (m ++ (rbrace :: s))))
          = pyStrip (lbrace :: (m ++ [rbrace]))) ∧
    (∀ t : List Char, findSub t fenceJson = none → lbrace ∉ t →
        processRawL t = Except.error PErr.invalidJSON) :=
  ⟨extractJson_fenced, extractJson_braces, processRawL_no_brace⟩

/-- Witness for C3 at three concrete completion texts. -/
theorem C3_extraction_cases_witness :
    extractJson ("Answer: ".data ++ (fenceJson ++ (" \x7b\"a\": 1\x7d ".data ++
        (fenceTicks ++ " done".data)))) = "\x7b\"a\": 1\x7d".data ∧
    extractJson ("text ".data ++ (lbrace :: ("\"a\": 1".data ++ (rbrace :: " tail".data))))
      = lbrace :: ("\"a\": 1".data ++ [rbrace]) ∧
    processRawL "no json here".data = Except.error PErr.invalidJSON := by
  refine ⟨?_, ?_, ?_⟩
  · have h := C3_extraction_cases.1 "Answer: ".data " \x7b\"a\": 1\x7d ".data " done".data
      (by decide) (by decide)
    exact h.trans (by rfl)
  · have h := C3_extraction_cases.2.1 "text ".data "\"a\": 1".data " tail".data
      (by decide) (by decide) (by decide)
    exact h.trans (by rfl)
  · exact C3_extraction_cases.2.2 "no json here".data (by decide) (by decide)

/-- Counterexample to C3 as stated: a completion with no `{` fails
with exactly the same failure as one whose extracted span is
unparsable JSON — the claimed distinct `MalformedCompletion` mode does
not exist. -/
theorem C3_no_brace_failure_equals_parse_failure :
    processRaw "hello" = Except.error PErr.invalidJSON ∧
    processRaw "\x7bbad\x7d" = Except.error PErr.invalidJSON := ⟨rfl, rfl⟩
